import Mathlib

/-!
Verification of the page-audio synchronization system and the error handler
of the text_to_speech repository, shallowly embedded from
src/utils/pageAudioSync.ts and src/utils/errorHandler.ts.

JavaScript numbers holding page numbers are modelled as rationals where the
integer-ness of the input matters (Number.isInteger becomes den = 1) and as
naturals or integers where the source only ever stores integer values.
JavaScript Map objects are modelled as association lists in insertion order.
Timestamps (Date.now()) are passed in explicitly.  The setTimeout-based
debounce is modelled by an explicit pending request in the state together
with a separate timer-firing transition.
-/

set_option maxHeartbeats 1000000

namespace TextToSpeech

/-- Model of a JavaScript Map as an association list in insertion order:
set replaces the value of an existing key in place, or appends a new entry. -/
def mapSet {α β : Type} [DecidableEq α] (m : List (α × β)) (k : α) (v : β) :
    List (α × β) :=
  if m.any (fun p => decide (p.1 = k)) then
    m.map (fun p => if p.1 = k then (k, v) else p)
  else
    m ++ [(k, v)]

/-- Model of Map.get: the value of the first entry with the given key. -/
def mapGet {α β : Type} [DecidableEq α] (m : List (α × β)) (k : α) : Option β :=
  (m.find? (fun p => decide (p.1 = k))).map (fun p => p.2)

/-! The data model of pageAudioSync.ts. -/

inductive ExtractionMethod
  | text
  | ocr
  | mixed
deriving DecidableEq, Repr

structure PageMapping where
  pageNumber : Nat
  startCharIndex : Int
  endCharIndex : Int
  startSentenceIndex : Int
  endSentenceIndex : Int
  wordCount : Nat
  textContent : String
  isEmpty : Bool
  hasImages : Bool
  extractionMethod : ExtractionMethod
deriving DecidableEq, Repr

structure PlaybackState where
  currentPage : Nat
  currentSentenceIndex : Int
  currentCharIndex : Int
  totalPages : Nat
  totalSentences : Nat
  isPlaying : Bool
  playbackPosition : Rat
deriving DecidableEq, Repr

/-- Full state of a PageAudioSynchronizer instance. The debounceTimer field is
modelled as the (at most one) pending debounced navigation request, and the
onError callback as the list of messages delivered to it. -/
structure SyncState where
  pageMap : List (Nat × PageMapping)
  sentenceToPageMap : List (Int × Nat)
  playbackState : PlaybackState
  pending : Option (Rat × Bool)
  errors : List String
deriving DecidableEq, Repr

/-- PlaybackState set up by the constructor. -/
def initialPlaybackState : PlaybackState :=
  { currentPage := 1
    currentSentenceIndex := 0
    currentCharIndex := 0
    totalPages := 0
    totalSentences := 0
    isPlaying := false
    playbackPosition := 0 }

/-- Freshly constructed synchronizer. -/
def newSynchronizer : SyncState :=
  { pageMap := []
    sentenceToPageMap := []
    playbackState := initialPlaybackState
    pending := none
    errors := [] }

/-- Model of the private handleError method: the message is delivered to the
onError channel. -/
def pushError (st : SyncState) (message : String) : SyncState :=
  { st with errors := st.errors ++ [message] }

/-- Model of String.prototype.trim: strip leading and trailing whitespace
characters. -/
def jsTrim (s : String) : String :=
  ⟨((s.data.dropWhile Char.isWhitespace).reverse.dropWhile Char.isWhitespace).reverse⟩

/-- Model of countWords: split on whitespace, keep nonempty words. -/
def countWords (text : String) : Nat :=
  (((jsTrim text).split (fun c => c.isWhitespace)).filter (fun w => w.length > 0)).length

/-- Math.ceil of a natural division, as used for avgSentencesPerPage.
The source divides by pdfPages.length, which callers keep positive. -/
def ceilDiv (a b : Nat) : Nat := (a + b - 1) / b

/-- Model of calculateSentencesForPage: sentences.slice(startIndex, endIndex).
The totalPages parameter is unused, exactly as in the source. -/
def calculateSentencesForPage (sentences : List String) (pageNumber : Nat)
    (totalPages : Nat) (avgSentencesPerPage : Nat) : List String :=
  let startIndex := (pageNumber - 1) * avgSentencesPerPage
  let endIndex := min (startIndex + avgSentencesPerPage) sentences.length
  (sentences.drop startIndex).take (endIndex - startIndex)

/-- Mutable locals of the initializePageMappings loop. -/
structure InitAccum where
  pageMap : List (Nat × PageMapping)
  sentenceToPageMap : List (Int × Nat)
  currentCharIndex : Int
  currentSentenceIndex : Int
deriving DecidableEq, Repr

/-- Model of the inner for-loop of initializePageMappings that maps every
sentence index i with start ≤ i ≤ stop to pageNum via Map.set. -/
def setSentenceRange (m : List (Int × Nat)) (start stop : Int) (pageNum : Nat) :
    List (Int × Nat) :=
  (List.range (stop + 1 - start).toNat).foldl
    (fun acc (j : Nat) => mapSet acc (start + (j : Int)) pageNum) m

/-- Body of the for-loop of initializePageMappings for one page number.
detectImages always resolves false in the source, so hasImages is false. -/
def initStep (sentences : List String) (totalPages avgSentencesPerPage : Nat)
    (em : ExtractionMethod) (st : InitAccum) (pageNum : Nat) : InitAccum :=
  let sentencesForPage :=
    calculateSentencesForPage sentences pageNum totalPages avgSentencesPerPage
  let startSentenceIndex : Int := st.currentSentenceIndex
  let endSentenceIndex : Int :=
    min (st.currentSentenceIndex + (sentencesForPage.length : Int) - 1)
      ((sentences.length : Int) - 1)
  let pageText := String.intercalate " " sentencesForPage
  let startCharIndex : Int := st.currentCharIndex
  let endCharIndex : Int := st.currentCharIndex + (pageText.length : Int) - 1
  let pageMapping : PageMapping :=
    { pageNumber := pageNum
      startCharIndex := startCharIndex
      endCharIndex := endCharIndex
      startSentenceIndex := startSentenceIndex
      endSentenceIndex := endSentenceIndex
      wordCount := countWords pageText
      textContent := pageText
      isEmpty := (jsTrim pageText).length == 0
      hasImages := false
      extractionMethod := em }
  { pageMap := mapSet st.pageMap pageNum pageMapping
    sentenceToPageMap :=
      setSentenceRange st.sentenceToPageMap startSentenceIndex endSentenceIndex pageNum
    currentCharIndex := endCharIndex + 1
    currentSentenceIndex := endSentenceIndex + 1 }

/-- Model of initializePageMappings. Of the pdfPages array only the length is
observable: entries are consumed only by detectImages, which ignores them and
resolves false. The loop runs pageNum = 1 .. pdfPages.length. -/
def initializePageMappings (st : SyncState) (pdfPagesLen : Nat)
    (sentences : List String) (em : ExtractionMethod) : SyncState :=
  let avgSentencesPerPage := ceilDiv sentences.length pdfPagesLen
  let acc := (List.range' 1 pdfPagesLen).foldl
    (initStep sentences pdfPagesLen avgSentencesPerPage em)
    { pageMap := []
      sentenceToPageMap := []
      currentCharIndex := 0
      currentSentenceIndex := 0 }
  { st with
    pageMap := acc.pageMap
    sentenceToPageMap := acc.sentenceToPageMap
    playbackState := { st.playbackState with
      totalPages := pdfPagesLen
      totalSentences := sentences.length } }

/-- Model of isValidPageNumber: Number.isInteger becomes den = 1. -/
def isValidPageNumber (st : SyncState) (pageNumber : Rat) : Bool :=
  (pageNumber.den == 1) && decide ((1 : Rat) ≤ pageNumber) &&
    decide (pageNumber ≤ (st.playbackState.totalPages : Rat))

/-- Model of findNextPageWithContent: the first page after startPage whose
mapping exists and is not empty. -/
def findNextPageWithContent (st : SyncState) (startPage : Nat) : Option Nat :=
  (List.range' (startPage + 1) (st.playbackState.totalPages - startPage)).find?
    (fun page =>
      match mapGet st.pageMap page with
      | some mapping => !mapping.isEmpty
      | none => false)

/-- State update applied by the debounce callback for a non-empty page. -/
def applyNavigation (st : SyncState) (pageNumber : Nat) (pm : PageMapping)
    (startPlayback : Bool) : SyncState :=
  { st with playbackState := { st.playbackState with
      currentPage := pageNumber
      currentSentenceIndex := pm.startSentenceIndex
      currentCharIndex := pm.startCharIndex
      playbackPosition := 0
      isPlaying := if startPlayback then true else st.playbackState.isPlaying } }

/-- Body of the debounce callback of navigateToPage. The recursive call for
empty-page redirection is passed in as recNav. -/
def navCallback (recNav : SyncState → Rat → Bool → Bool × SyncState)
    (st : SyncState) (pageNumber : Nat) (startPlayback : Bool) :
    Bool × SyncState :=
  match mapGet st.pageMap pageNumber with
  | none => (false, pushError st "Page mapping not found")
  | some pageMapping =>
    if pageMapping.isEmpty then
      match findNextPageWithContent st pageNumber with
      | some nextPageWithContent =>
        recNav (pushError st "Page is empty. Jumping to page with content.")
          ((nextPageWithContent : Nat) : Rat) startPlayback
      | none =>
        (false, pushError st "Page is empty and no subsequent pages have content.")
    else
      (true, applyNavigation st pageNumber pageMapping startPlayback)

/-- Model of navigateToPage with the debounce timer already fired (the promise
observed after the 300ms wait), with explicit fuel for the redirect recursion.
Page numbers reaching the callback are validated integers, looked up as
naturals. -/
def navigateToPageFuel : Nat → SyncState → Rat → Bool → Bool × SyncState
  | 0, st, _, _ => (false, st)
  | fuel + 1, st, pageNumber, startPlayback =>
    if isValidPageNumber st pageNumber then
      navCallback (navigateToPageFuel fuel) st pageNumber.num.toNat startPlayback
    else
      (false, pushError st "Invalid page number")

/-- Resolved navigateToPage call: the redirect chain strictly increases the
page number, so totalPages + 1 units of fuel always suffice. -/
def navigateToPage (st : SyncState) (pageNumber : Rat) (startPlayback : Bool) :
    Bool × SyncState :=
  navigateToPageFuel (st.playbackState.totalPages + 1) st pageNumber startPlayback

/-- Synchronous part of a navigateToPage call: validation, then clearing any
pending debounced request and scheduling this one. Returns some result when
the call resolves synchronously (validation failure), none when resolution
awaits the debounce timer. -/
def navRequest (st : SyncState) (pageNumber : Rat) (startPlayback : Bool) :
    Option Bool × SyncState :=
  if isValidPageNumber st pageNumber then
    (none, { st with pending := some (pageNumber, startPlayback) })
  else
    (some false, pushError st "Invalid page number")

/-- Firing of the debounce timer 300ms after the last request: runs the
pending callback, if any, and resolves the promise of that request. -/
def fireDebounce (st : SyncState) : Option Bool × SyncState :=
  match st.pending with
  | none => (none, st)
  | some (pageNumber, startPlayback) =>
    let st1 := { st with pending := none }
    let r := navCallback (navigateToPageFuel st1.playbackState.totalPages) st1
      pageNumber.num.toNat startPlayback
    (some r.1, r.2)

/-- Model of updateAudioPosition (advanceTo). -/
def updateAudioPosition (st : SyncState) (sentenceIndex : Int) : SyncState :=
  if sentenceIndex < 0 ∨ (st.playbackState.totalSentences : Int) ≤ sentenceIndex then
    st
  else
    match mapGet st.sentenceToPageMap sentenceIndex with
    | none => st
    | some pageNumber =>
      if pageNumber == 0 then st
      else
        match mapGet st.pageMap pageNumber with
        | none => st
        | some pageMapping =>
          let sentencesInPage : Int :=
            pageMapping.endSentenceIndex - pageMapping.startSentenceIndex + 1
          let sentencePositionInPage : Int :=
            sentenceIndex - pageMapping.startSentenceIndex
          let playbackPosition : Rat :=
            if 0 < sentencesInPage then
              (sentencePositionInPage : Rat) / (sentencesInPage : Rat)
            else 0
          { st with playbackState := { st.playbackState with
              currentPage := pageNumber
              currentSentenceIndex := sentenceIndex
              playbackPosition := max 0 (min 1 playbackPosition) } }

/-! The data model of errorHandler.ts. -/

inductive ErrorType
  | PDF_LOAD_ERROR
  | TEXT_EXTRACTION_ERROR
  | OCR_ERROR
  | AUDIO_SYNTHESIS_ERROR
  | PAGE_NAVIGATION_ERROR
  | SYNCHRONIZATION_ERROR
  | PERFORMANCE_ERROR
  | VALIDATION_ERROR
  | NETWORK_ERROR
  | BROWSER_COMPATIBILITY_ERROR
deriving DecidableEq, Repr

inductive ErrorSeverity
  | LOW
  | MEDIUM
  | HIGH
  | CRITICAL
deriving DecidableEq, Repr

/-- Details object passed to handleError; the only field recovery inspects is
extractionMethod (absent fields read as undefined). -/
structure ErrorDetails where
  extractionMethod : Option String
deriving DecidableEq, Repr

structure ErrorInfo where
  type : ErrorType
  severity : ErrorSeverity
  message : String
  details : Option ErrorDetails
  timestamp : Nat
  context : Option String
  recoverable : Bool
  recoveryActions : List String
deriving DecidableEq, Repr

/-- Model of ErrorHandler.determineSeverity. All ten enum members are covered
by explicit cases in the source; its default branch is unreachable. -/
def determineSeverity (type : ErrorType) : ErrorSeverity :=
  match type with
  | .PDF_LOAD_ERROR | .BROWSER_COMPATIBILITY_ERROR => .CRITICAL
  | .TEXT_EXTRACTION_ERROR | .AUDIO_SYNTHESIS_ERROR | .SYNCHRONIZATION_ERROR => .HIGH
  | .OCR_ERROR | .PAGE_NAVIGATION_ERROR | .PERFORMANCE_ERROR => .MEDIUM
  | .VALIDATION_ERROR | .NETWORK_ERROR => .LOW

/-- Model of ErrorHandler.isRecoverable; likewise total over the enum. -/
def isRecoverable (type : ErrorType) : Bool :=
  match type with
  | .PDF_LOAD_ERROR | .BROWSER_COMPATIBILITY_ERROR => false
  | .TEXT_EXTRACTION_ERROR | .OCR_ERROR | .AUDIO_SYNTHESIS_ERROR
  | .PAGE_NAVIGATION_ERROR | .SYNCHRONIZATION_ERROR | .PERFORMANCE_ERROR
  | .VALIDATION_ERROR | .NETWORK_ERROR => true

/-- Model of ErrorHandler.getRecoveryActions. -/
def getRecoveryActions (type : ErrorType) : List String :=
  match type with
  | .TEXT_EXTRACTION_ERROR =>
    ["Try OCR extraction", "Skip problematic page",
     "Use alternative text extraction method"]
  | .OCR_ERROR =>
    ["Fallback to standard text extraction", "Skip page with OCR issues",
     "Reduce image quality and retry"]
  | .AUDIO_SYNTHESIS_ERROR =>
    ["Try different voice", "Reduce text chunk size",
     "Use system default voice", "Skip problematic text segment"]
  | .PAGE_NAVIGATION_ERROR =>
    ["Validate page number", "Navigate to nearest valid page",
     "Reset to first page"]
  | .SYNCHRONIZATION_ERROR =>
    ["Recalculate page mappings", "Reset synchronization state",
     "Restart from current position"]
  | _ => ["Retry operation", "Reset to default state"]

/-- Recovery strategy returned by getRecoveryStrategy; each action closure of
the source is pure modulo console logging, so it is modelled by the Bool it
resolves with. -/
structure RecoveryStrategy where
  canRecover : Bool
  actions : List Bool
  fallbackMessage : String
deriving DecidableEq, Repr

/-- Model of ErrorHandler.getRecoveryStrategy. The TEXT_EXTRACTION_ERROR
action resolves true exactly when the optional extractionMethod detail
differs from the string ocr. -/
def getRecoveryStrategy (errorInfo : ErrorInfo) : RecoveryStrategy :=
  match errorInfo.type with
  | .TEXT_EXTRACTION_ERROR =>
    { canRecover := true
      actions :=
        [decide (errorInfo.details.bind (fun d => d.extractionMethod) ≠ some "ocr")]
      fallbackMessage := "Using alternative text extraction method" }
  | .AUDIO_SYNTHESIS_ERROR =>
    { canRecover := true
      actions := [true]
      fallbackMessage := "Using system default voice" }
  | _ =>
    { canRecover := false
      actions := []
      fallbackMessage := "No recovery strategy available" }

/-- Model of ErrorHandler.attemptRecovery: run the actions in order and
resolve true on the first success, false if none succeeds. -/
def attemptRecovery (errorInfo : ErrorInfo) : Bool :=
  let strategy := getRecoveryStrategy errorInfo
  if !strategy.canRecover then false
  else strategy.actions.any (fun a => a)

/-- State of an ErrorHandler instance. -/
structure ErrorHandlerState where
  errorLog : List ErrorInfo
  maxLogSize : Nat
deriving DecidableEq, Repr

/-- Freshly constructed ErrorHandler. -/
def newErrorHandler : ErrorHandlerState := { errorLog := [], maxLogSize := 100 }

/-- Model of Array.prototype.slice(-n): the last n elements. -/
def lastN {α : Type} (l : List α) (n : Nat) : List α := l.drop (l.length - n)

/-- Model of ErrorHandler.logError: push, then cut back to the most recent
maxLogSize entries when the limit is exceeded. -/
def logError (st : ErrorHandlerState) (errorInfo : ErrorInfo) : ErrorHandlerState :=
  let log := st.errorLog ++ [errorInfo]
  { st with errorLog := if st.maxLogSize < log.length then lastN log st.maxLogSize else log }

/-- ErrorInfo record built at the top of handleError. The error argument is
modelled as its message string, so the details field is the details argument.
Date.now() is passed in as an explicit timestamp. -/
def mkErrorInfo (type : ErrorType) (message : String) (context : Option String)
    (details : Option ErrorDetails) (timestamp : Nat) : ErrorInfo :=
  { type := type
    severity := determineSeverity type
    message := message
    details := details
    timestamp := timestamp
    context := context
    recoverable := isRecoverable type
    recoveryActions := getRecoveryActions type }

/-- Model of ErrorHandler.handleError: log the error, then attempt recovery
when the type is recoverable; resolve with the recovery outcome. -/
def handleError (st : ErrorHandlerState) (type : ErrorType) (message : String)
    (context : Option String) (details : Option ErrorDetails) (timestamp : Nat) :
    Bool × ErrorHandlerState :=
  let errorInfo := mkErrorInfo type message context details timestamp
  let st1 := logError st errorInfo
  if errorInfo.recoverable then (attemptRecovery errorInfo, st1) else (false, st1)

/-- Arguments of one handleError call, for iterated-call statements. -/
structure HandleErrorCall where
  type : ErrorType
  message : String
  context : Option String
  details : Option ErrorDetails
  timestamp : Nat
deriving DecidableEq, Repr

/-- Run a sequence of handleError calls, keeping only the evolving state. -/
def runHandleErrors (st : ErrorHandlerState) (calls : List HandleErrorCall) :
    ErrorHandlerState :=
  calls.foldl (fun s c => (handleError s c.type c.message c.context c.details c.timestamp).2) st

/-- ErrorInfo produced by one call, for describing log contents. -/
def callInfo (c : HandleErrorCall) : ErrorInfo :=
  mkErrorInfo c.type c.message c.context c.details c.timestamp

/-! Generic lemmas about the Map model. -/

theorem mapGet_nil {α β : Type} [DecidableEq α] (k : α) :
    mapGet ([] : List (α × β)) k = none := rfl

theorem mapGet_cons {α β : Type} [DecidableEq α] (a : α) (b : β)
    (m : List (α × β)) (k : α) :
    mapGet ((a, b) :: m) k = if a = k then some b else mapGet m k := by
  by_cases h : a = k <;> simp [mapGet, List.find?_cons, h]

theorem mapGet_append {α β : Type} [DecidableEq α] (m₁ m₂ : List (α × β)) (k : α) :
    mapGet (m₁ ++ m₂) k = (mapGet m₁ k).or (mapGet m₂ k) := by
  unfold mapGet
  rw [List.find?_append]
  cases List.find? (fun p => decide (p.1 = k)) m₁ <;> simp

theorem mapGet_eq_none_iff {α β : Type} [DecidableEq α] (m : List (α × β)) (k : α) :
    mapGet m k = none ↔ k ∉ m.map Prod.fst := by
  induction m with
  | nil => simp [mapGet_nil]
  | cons p m ih =>
    obtain ⟨a, b⟩ := p
    rw [mapGet_cons]
    by_cases h : a = k
    · subst h
      simp
    · rw [if_neg h, ih]
      simp only [List.map_cons, List.mem_cons]
      constructor
      · intro h1 h2
        rcases h2 with rfl | h3
        · exact h rfl
        · exact h1 h3
      · intro h1 h2
        exact h1 (Or.inr h2)

theorem mapGet_isSome_iff {α β : Type} [DecidableEq α] (m : List (α × β)) (k : α) :
    (mapGet m k).isSome = true ↔ k ∈ m.map Prod.fst := by
  rw [← Decidable.not_iff_not, ← mapGet_eq_none_iff]
  cases mapGet m k <;> simp

theorem mapSet_of_not_mem {α β : Type} [DecidableEq α] {m : List (α × β)} {k : α}
    (v : β) (h : k ∉ m.map Prod.fst) : mapSet m k v = m ++ [(k, v)] := by
  have hany : m.any (fun p => decide (p.1 = k)) = false := by
    by_contra hc
    rw [Bool.not_eq_false, List.any_eq_true] at hc
    obtain ⟨p, hp, hk⟩ := hc
    exact h (List.mem_map.mpr ⟨p, hp, of_decide_eq_true hk⟩)
  simp [mapSet, hany]

theorem mapGet_singleton {α β : Type} [DecidableEq α] (a : α) (b : β) (k : α) :
    mapGet [(a, b)] k = if a = k then some b else none := by
  rw [mapGet_cons, mapGet_nil]

/-- Lookup in the key range start, start+1, ..., start+n-1, all mapped to v. -/
theorem mapGet_rangeMap (n : Nat) (start : Int) (v : Nat) (i : Int) :
    mapGet ((List.range n).map (fun (j : Nat) => (start + (j : Int), v))) i =
      if start ≤ i ∧ i < start + n then some v else none := by
  induction n with
  | zero =>
    simp only [List.range_zero, List.map_nil, mapGet_nil]
    split
    · rename_i h
      exact absurd h (by omega)
    · rfl
  | succ n ih =>
    rw [List.range_succ, List.map_append, mapGet_append, ih]
    simp only [List.map_cons, List.map_nil, mapGet_singleton]
    split_ifs <;> first | rfl | (exfalso; omega)

/-- Integer key list 0, 1, ..., n-1. -/
def intList (n : Nat) : List Int := (List.range n).map (fun (j : Nat) => (j : Int))

theorem mem_intList (n : Nat) (i : Int) : i ∈ intList n ↔ 0 ≤ i ∧ i < n := by
  simp only [intList, List.mem_map, List.mem_range]
  constructor
  · rintro ⟨j, hj, rfl⟩
    omega
  · rintro ⟨h0, h1⟩
    exact ⟨i.toNat, by omega, by omega⟩

theorem nodup_intList (n : Nat) : (intList n).Nodup :=
  List.Nodup.map (fun a b h => by omega) (List.nodup_range n)

theorem intList_append (a b : Nat) :
    intList (a + b) = intList a ++ (List.range b).map (fun (j : Nat) => ((a : Int) + j)) := by
  simp only [intList, List.range_add, List.map_append, List.map_map]
  rfl

theorem intList_extend (a b : Nat) (hab : a ≤ b) :
    intList a ++ (List.range (b - a)).map (fun (j : Nat) => ((a : Int) + j)) = intList b := by
  conv_rhs => rw [← Nat.add_sub_cancel' hab]
  rw [intList_append]

/-- Unrolling of the loop that Map.sets a block of fresh integer keys. -/
theorem foldlSet_spec {v : Nat} :
    ∀ (n : Nat) (m : List (Int × Nat)) (start : Int),
      (∀ j : Nat, j < n → (start + (j : Int)) ∉ m.map Prod.fst) →
      (List.range n).foldl (fun acc (j : Nat) => mapSet acc (start + (j : Int)) v) m =
        m ++ (List.range n).map (fun (j : Nat) => (start + (j : Int), v)) := by
  intro n
  induction n with
  | zero => simp
  | succ n ih =>
    intro m start h
    rw [List.range_succ, List.foldl_concat, ih m start (fun j hj => h j (by omega))]
    have hfresh : (start + (n : Int)) ∉
        (m ++ (List.range n).map (fun (j : Nat) => (start + (j : Int), v))).map Prod.fst := by
      rw [List.map_append]
      simp only [List.mem_append, List.map_map]
      rintro (hm | hr)
      · exact h n (by omega) hm
      · simp only [List.mem_map, Function.comp, List.mem_range] at hr
        obtain ⟨j, hj, hje⟩ := hr
        omega
    rw [mapSet_of_not_mem v hfresh, List.map_append, List.append_assoc]
    simp

theorem setSentenceRange_spec (m : List (Int × Nat)) (start stop : Int) (v : Nat)
    (h : ∀ j : Nat, j < (stop + 1 - start).toNat → (start + (j : Int)) ∉ m.map Prod.fst) :
    setSentenceRange m start stop v =
      m ++ (List.range (stop + 1 - start).toNat).map (fun (j : Nat) => (start + (j : Int), v)) :=
  foldlSet_spec (stop + 1 - start).toNat m start h

/-! Small string facts used for the isEmpty flag. -/

theorem jsTrim_empty : jsTrim "" = "" := rfl

theorem one_le_length_of_jsTrim_ne {s : String}
    (h : (jsTrim s).length ≠ 0) : 1 ≤ s.length := by
  obtain ⟨data⟩ := s
  cases data with
  | nil => exact absurd rfl h
  | cons c cs => simp [String.length]

/-! Loop invariant of initializePageMappings. -/

/-- Initial value of the loop accumulator. -/
def initAccum0 : InitAccum :=
  { pageMap := []
    sentenceToPageMap := []
    currentCharIndex := 0
    currentSentenceIndex := 0 }

/-- PageMapping built by one iteration of the loop. -/
def stepPageMapping (sentences : List String) (totalPages avg : Nat)
    (em : ExtractionMethod) (st : InitAccum) (pageNum : Nat) : PageMapping :=
  let sentencesForPage := calculateSentencesForPage sentences pageNum totalPages avg
  let pageText := String.intercalate " " sentencesForPage
  { pageNumber := pageNum
    startCharIndex := st.currentCharIndex
    endCharIndex := st.currentCharIndex + (pageText.length : Int) - 1
    startSentenceIndex := st.currentSentenceIndex
    endSentenceIndex := min (st.currentSentenceIndex + (sentencesForPage.length : Int) - 1)
      ((sentences.length : Int) - 1)
    wordCount := countWords pageText
    textContent := pageText
    isEmpty := (jsTrim pageText).length == 0
    hasImages := false
    extractionMethod := em }

theorem initStep_eq (sentences : List String) (totalPages avg : Nat)
    (em : ExtractionMethod) (st : InitAccum) (pageNum : Nat) :
    initStep sentences totalPages avg em st pageNum =
      { pageMap := mapSet st.pageMap pageNum
          (stepPageMapping sentences totalPages avg em st pageNum)
        sentenceToPageMap := setSentenceRange st.sentenceToPageMap
          st.currentSentenceIndex
          (stepPageMapping sentences totalPages avg em st pageNum).endSentenceIndex
          pageNum
        currentCharIndex :=
          (stepPageMapping sentences totalPages avg em st pageNum).endCharIndex + 1
        currentSentenceIndex :=
          (stepPageMapping sentences totalPages avg em st pageNum).endSentenceIndex + 1 } :=
  rfl

theorem stepPageMapping_charSpan (sentences : List String) (totalPages avg : Nat)
    (em : ExtractionMethod) (st : InitAccum) (pageNum : Nat)
    (he : (stepPageMapping sentences totalPages avg em st pageNum).isEmpty = false) :
    (stepPageMapping sentences totalPages avg em st pageNum).startCharIndex ≤
      (stepPageMapping sentences totalPages avg em st pageNum).endCharIndex := by
  simp only [stepPageMapping] at he ⊢
  rw [beq_eq_false_iff_ne] at he
  have h2 := one_le_length_of_jsTrim_ne he
  omega

/-- Invariant after the loop has processed pages 1 .. k. -/
structure InitInv (sentences : List String) (avg : Nat) (k : Nat) (st : InitAccum) :
    Prop where
  cur_eq : st.currentSentenceIndex = ((min (k * avg) sentences.length : Nat) : Int)
  char0 : k = 0 → st.currentCharIndex = 0
  pageKeys : st.pageMap.map Prod.fst = List.range' 1 k
  pageVal : ∀ p pm, mapGet st.pageMap p = some pm →
    1 ≤ p ∧ p ≤ k ∧ pm.pageNumber = p ∧
    pm.startSentenceIndex = ((min ((p - 1) * avg) sentences.length : Nat) : Int) ∧
    pm.endSentenceIndex = ((min (p * avg) sentences.length : Nat) : Int) - 1 ∧
    (pm.isEmpty = false → pm.startCharIndex ≤ pm.endCharIndex) ∧
    (p = 1 → pm.startCharIndex = 0)
  pageSome : ∀ p, 1 ≤ p → p ≤ k → (mapGet st.pageMap p).isSome = true
  sentKeys : st.sentenceToPageMap.map Prod.fst =
    intList (min (k * avg) sentences.length)
  sentVal : ∀ i p, mapGet st.sentenceToPageMap i = some p →
    1 ≤ p ∧ p ≤ k ∧
    ((min ((p - 1) * avg) sentences.length : Nat) : Int) ≤ i ∧
    i < ((min (p * avg) sentences.length : Nat) : Int)
  sentSome : ∀ i : Int, 0 ≤ i → i < ((min (k * avg) sentences.length : Nat) : Int) →
    (mapGet st.sentenceToPageMap i).isSome = true

theorem initInv_zero (sentences : List String) (avg : Nat) :
    InitInv sentences avg 0 initAccum0 where
  cur_eq := by simp [initAccum0]
  char0 := fun _ => rfl
  pageKeys := rfl
  pageVal := by
    intro p pm h
    simp [initAccum0, mapGet_nil] at h
  pageSome := by
    intro p h1 h2
    omega
  sentKeys := by simp [initAccum0, intList]
  sentVal := by
    intro i p h
    simp [initAccum0, mapGet_nil] at h
  sentSome := by
    intro i h0 h1
    exfalso
    omega

theorem initInv_step (sentences : List String) (avg totalPages : Nat)
    (em : ExtractionMethod) (k : Nat) (st : InitAccum)
    (h : InitInv sentences avg k st) :
    InitInv sentences avg (k + 1) (initStep sentences totalPages avg em st (k + 1)) := by
  have hmul : (k + 1) * avg = k * avg + avg := by ring
  have hL : (calculateSentencesForPage sentences (k + 1) totalPages avg).length
      = min (k * avg + avg) sentences.length - k * avg := by
    simp [calculateSentencesForPage]
    omega
  have hpmEnd : (stepPageMapping sentences totalPages avg em st (k + 1)).endSentenceIndex
      = ((min ((k + 1) * avg) sentences.length : Nat) : Int) - 1 := by
    simp only [stepPageMapping]
    rw [h.cur_eq, hL]
    omega
  have hpmStart : (stepPageMapping sentences totalPages avg em st (k + 1)).startSentenceIndex
      = ((min (k * avg) sentences.length : Nat) : Int) := h.cur_eq
  have hfreshPage : (k + 1) ∉ st.pageMap.map Prod.fst := by
    rw [h.pageKeys]
    intro hmem
    rw [List.mem_range'] at hmem
    obtain ⟨i, hi, heq⟩ := hmem
    omega
  have hn : ((stepPageMapping sentences totalPages avg em st (k + 1)).endSentenceIndex + 1
        - st.currentSentenceIndex).toNat
      = min ((k + 1) * avg) sentences.length - min (k * avg) sentences.length := by
    rw [hpmEnd, h.cur_eq]
    omega
  have hfresh : ∀ j : Nat,
      j < ((stepPageMapping sentences totalPages avg em st (k + 1)).endSentenceIndex + 1
        - st.currentSentenceIndex).toNat →
      (st.currentSentenceIndex + (j : Int)) ∉ st.sentenceToPageMap.map Prod.fst := by
    intro j hj
    rw [h.sentKeys, mem_intList, h.cur_eq]
    omega
  refine { cur_eq := ?_, char0 := ?_, pageKeys := ?_, pageVal := ?_, pageSome := ?_,
           sentKeys := ?_, sentVal := ?_, sentSome := ?_ }
  · rw [initStep_eq]
    show (stepPageMapping sentences totalPages avg em st (k + 1)).endSentenceIndex + 1 = _
    rw [hpmEnd]
    omega
  · intro h0
    exact absurd h0 (by omega)
  · rw [initStep_eq]
    show (mapSet st.pageMap (k + 1) _).map Prod.fst = _
    rw [mapSet_of_not_mem _ hfreshPage, List.map_append, h.pageKeys, List.range'_concat]
    simp
    omega
  · intro p pm hget
    rw [initStep_eq] at hget
    have hget2 : mapGet (st.pageMap ++
        [(k + 1, stepPageMapping sentences totalPages avg em st (k + 1))]) p = some pm := by
      rw [← mapSet_of_not_mem _ hfreshPage]
      exact hget
    rw [mapGet_append] at hget2
    cases hold : mapGet st.pageMap p with
    | some q =>
      rw [hold] at hget2
      have hq : q = pm := by
        simpa using hget2
      subst hq
      obtain ⟨h1, h2, h3, h4, h5, h6, h7⟩ := h.pageVal p q hold
      exact ⟨h1, by omega, h3, h4, h5, h6, h7⟩
    | none =>
      rw [hold, Option.none_or, mapGet_singleton] at hget2
      by_cases hp : k + 1 = p
      · subst hp
        rw [if_pos rfl] at hget2
        have hpm : stepPageMapping sentences totalPages avg em st (k + 1) = pm := by
          simpa using hget2
        subst hpm
        refine ⟨by omega, by omega, rfl, ?_, hpmEnd, ?_, ?_⟩
        · have : (k + 1) - 1 = k := by omega
          rw [this]
          exact hpmStart
        · exact stepPageMapping_charSpan sentences totalPages avg em st (k + 1)
        · intro hp1
          have hk0 : k = 0 := by omega
          show st.currentCharIndex = 0
          exact h.char0 hk0
      · rw [if_neg hp] at hget2
        exact absurd hget2 (by simp)
  · intro p h1 h2
    rw [initStep_eq]
    show (mapGet (mapSet st.pageMap (k + 1) _) p).isSome = true
    rw [mapSet_of_not_mem _ hfreshPage, mapGet_append]
    by_cases hp : p ≤ k
    · have hsome := h.pageSome p h1 hp
      cases hold : mapGet st.pageMap p with
      | some q => rfl
      | none => rw [hold] at hsome; simp at hsome
    · have hp1 : p = k + 1 := by omega
      subst hp1
      have hnone : mapGet st.pageMap (k + 1) = none :=
        (mapGet_eq_none_iff _ _).mpr hfreshPage
      rw [hnone, Option.none_or, mapGet_singleton, if_pos rfl]
      rfl
  · rw [initStep_eq]
    show (setSentenceRange st.sentenceToPageMap st.currentSentenceIndex
      (stepPageMapping sentences totalPages avg em st (k + 1)).endSentenceIndex
      (k + 1)).map Prod.fst = _
    rw [setSentenceRange_spec _ _ _ _ hfresh, List.map_append, h.sentKeys, List.map_map]
    have hcomp : (Prod.fst ∘ fun (j : Nat) => (st.currentSentenceIndex + (j : Int), k + 1))
        = fun (j : Nat) => (((min (k * avg) sentences.length : Nat) : Int) + (j : Int)) := by
      funext j
      simp [h.cur_eq]
    rw [hcomp, hn]
    exact intList_extend _ _ (by omega)
  · intro i p hget
    rw [initStep_eq] at hget
    have hget2 : mapGet (st.sentenceToPageMap ++
        (List.range ((stepPageMapping sentences totalPages avg em st (k + 1)).endSentenceIndex + 1
          - st.currentSentenceIndex).toNat).map
          (fun (j : Nat) => (st.currentSentenceIndex + (j : Int), k + 1))) i = some p := by
      rw [← setSentenceRange_spec _ _ _ _ hfresh]
      exact hget
    rw [mapGet_append] at hget2
    cases hold : mapGet st.sentenceToPageMap i with
    | some q =>
      rw [hold] at hget2
      have hq : q = p := by simpa using hget2
      subst hq
      obtain ⟨h1, h2, h3, h4⟩ := h.sentVal i q hold
      exact ⟨h1, by omega, h3, h4⟩
    | none =>
      rw [hold, Option.none_or, mapGet_rangeMap] at hget2
      by_cases hc : st.currentSentenceIndex ≤ i ∧
          i < st.currentSentenceIndex + ((stepPageMapping sentences totalPages avg em st
            (k + 1)).endSentenceIndex + 1 - st.currentSentenceIndex).toNat
      · rw [if_pos hc] at hget2
        have hp : p = k + 1 := by
          have := hget2
          simp at this
          omega
        subst hp
        obtain ⟨hc1, hc2⟩ := hc
        rw [hn] at hc2
        rw [h.cur_eq] at hc1 hc2
        refine ⟨by omega, by omega, ?_, ?_⟩
        · have : (k + 1) - 1 = k := by omega
          rw [this]
          exact hc1
        · omega
      · rw [if_neg hc] at hget2
        exact absurd hget2 (by simp)
  · intro i h0 h1
    rw [initStep_eq]
    show (mapGet (setSentenceRange st.sentenceToPageMap st.currentSentenceIndex
      (stepPageMapping sentences totalPages avg em st (k + 1)).endSentenceIndex
      (k + 1)) i).isSome = true
    rw [setSentenceRange_spec _ _ _ _ hfresh, mapGet_append]
    by_cases hi : i < ((min (k * avg) sentences.length : Nat) : Int)
    · have hsome := h.sentSome i h0 hi
      cases hold : mapGet st.sentenceToPageMap i with
      | some q => rfl
      | none => rw [hold] at hsome; simp at hsome
    · have hnone : mapGet st.sentenceToPageMap i = none := by
        rw [mapGet_eq_none_iff, h.sentKeys, mem_intList]
        omega
      rw [hnone, Option.none_or, mapGet_rangeMap, if_pos]
      · rfl
      · rw [hn, h.cur_eq]
        omega

theorem initInv_loop (sentences : List String) (avg totalPages : Nat)
    (em : ExtractionMethod) :
    ∀ k : Nat, InitInv sentences avg k
      ((List.range' 1 k).foldl (initStep sentences totalPages avg em) initAccum0) := by
  intro k
  induction k with
  | zero => exact initInv_zero sentences avg
  | succ k ih =>
    have hr : List.range' 1 (k + 1) = List.range' 1 k ++ [k + 1] := by
      rw [List.range'_concat]
      simp [Nat.add_comm]
    rw [hr, List.foldl_concat]
    exact initInv_step sentences avg totalPages em k _ ih

/-- Math.ceil covers: P pages of ceil(S/P) sentences hold at least S sentences. -/
theorem le_mul_ceilDiv (S P : Nat) (hP : 0 < P) : S ≤ P * ceilDiv S P := by
  unfold ceilDiv
  obtain ⟨q, hq⟩ : ∃ q, (S + P - 1) / P = q := ⟨_, rfl⟩
  obtain ⟨r, hr⟩ : ∃ r, (S + P - 1) % P = r := ⟨_, rfl⟩
  have h1 : P * q + r = S + P - 1 := by
    rw [← hq, ← hr]
    exact Nat.div_add_mod _ _
  have h2 : r < P := by
    rw [← hr]
    exact Nat.mod_lt _ hP
  rw [hq]
  obtain ⟨m, hm⟩ : ∃ m, P * q = m := ⟨_, rfl⟩
  rw [hm]
  rw [hm] at h1
  omega

/-- Restatement of the loop invariant at the result of initializePageMappings;
the built maps are exactly those of the loop accumulator. -/
theorem initializePageMappings_inv (st : SyncState) (P : Nat)
    (sentences : List String) (em : ExtractionMethod) :
    InitInv sentences (ceilDiv sentences.length P) P
      ((List.range' 1 P).foldl
        (initStep sentences P (ceilDiv sentences.length P) em) initAccum0) ∧
    (initializePageMappings st P sentences em).pageMap =
      ((List.range' 1 P).foldl
        (initStep sentences P (ceilDiv sentences.length P) em) initAccum0).pageMap ∧
    (initializePageMappings st P sentences em).sentenceToPageMap =
      ((List.range' 1 P).foldl
        (initStep sentences P (ceilDiv sentences.length P) em) initAccum0).sentenceToPageMap :=
  ⟨initInv_loop sentences (ceilDiv sentences.length P) P em P, rfl, rfl⟩

/-! Claim theorems. -/

/-- Claim C1: for every call to initializePageMappings with S > 0 sentences and
P > 0 pages, the page map holds exactly one PageMapping for every page number
1..P (pages with empty sentence ranges included), and the sentence-to-page
index assigns every sentence index in [0, S) to exactly one page, in [1, P]. -/
theorem claim_C1 (st : SyncState) (P : Nat) (sentences : List String)
    (em : ExtractionMethod) (hP : 0 < P) (hS : 0 < sentences.length) :
    (∀ p : Nat, 1 ≤ p → p ≤ P →
      ((initializePageMappings st P sentences em).pageMap.map Prod.fst).count p = 1) ∧
    (∀ i : Int, 0 ≤ i → i < (sentences.length : Int) →
      ((initializePageMappings st P sentences em).sentenceToPageMap.map
        Prod.fst).count i = 1 ∧
      ∃ pg : Nat,
        mapGet (initializePageMappings st P sentences em).sentenceToPageMap i =
          some pg ∧ 1 ≤ pg ∧ pg ≤ P) := by
  obtain ⟨hinv, hpm, hsm⟩ := initializePageMappings_inv st P sentences em
  have hcov : min (P * ceilDiv sentences.length P) sentences.length
      = sentences.length := by
    have := le_mul_ceilDiv sentences.length P hP
    omega
  constructor
  · intro p h1 h2
    rw [hpm, hinv.pageKeys]
    apply List.count_eq_one_of_mem (List.nodup_range' _ _)
    rw [List.mem_range']
    exact ⟨p - 1, by omega, by omega⟩
  · intro i h0 hiS
    constructor
    · rw [hsm, hinv.sentKeys, hcov]
      apply List.count_eq_one_of_mem (nodup_intList _)
      rw [mem_intList]
      exact ⟨h0, hiS⟩
    · have hisome := hinv.sentSome i h0 (by rw [hcov]; exact hiS)
      rw [← hsm] at hisome
      cases hget : mapGet (initializePageMappings st P sentences em).sentenceToPageMap i with
      | none =>
        rw [hget] at hisome
        simp at hisome
      | some pg =>
        have hget2 : mapGet ((List.range' 1 P).foldl
            (initStep sentences P (ceilDiv sentences.length P) em)
            initAccum0).sentenceToPageMap i = some pg := by
          rw [← hsm]
          exact hget
        obtain ⟨hv1, hv2, _, _⟩ := hinv.sentVal i pg hget2
        exact ⟨pg, rfl, hv1, hv2⟩

/-- Claim C2: page sentence ranges are contiguous: a mapping exists for every
page 1..P, page 1 starts at sentence index 0, and for every p < P the page p
mapping of page p has endSentenceIndex + 1 equal to the startSentenceIndex
of the mapping of page p+1. -/
theorem claim_C2 (st : SyncState) (P : Nat) (sentences : List String)
    (em : ExtractionMethod) (hP : 0 < P) (hS : 0 < sentences.length) :
    (∀ p : Nat, 1 ≤ p → p ≤ P →
      (mapGet (initializePageMappings st P sentences em).pageMap p).isSome = true) ∧
    (∀ pm1, mapGet (initializePageMappings st P sentences em).pageMap 1 = some pm1 →
      pm1.startSentenceIndex = 0) ∧
    (∀ (p : Nat) pmp pmq, 1 ≤ p → p < P →
      mapGet (initializePageMappings st P sentences em).pageMap p = some pmp →
      mapGet (initializePageMappings st P sentences em).pageMap (p + 1) = some pmq →
      pmp.endSentenceIndex + 1 = pmq.startSentenceIndex) := by
  obtain ⟨hinv, hpm, _⟩ := initializePageMappings_inv st P sentences em
  refine ⟨?_, ?_, ?_⟩
  · intro p h1 h2
    rw [hpm]
    exact hinv.pageSome p h1 h2
  · intro pm1 hget
    have hget2 : mapGet ((List.range' 1 P).foldl
        (initStep sentences P (ceilDiv sentences.length P) em)
        initAccum0).pageMap 1 = some pm1 := by
      rw [← hpm]
      exact hget
    obtain ⟨_, _, _, h4, _, _, _⟩ := hinv.pageVal 1 pm1 hget2
    rw [h4]
    omega
  · intro p pmp pmq h1 h2 hgp hgq
    have hgp2 : mapGet ((List.range' 1 P).foldl
        (initStep sentences P (ceilDiv sentences.length P) em)
        initAccum0).pageMap p = some pmp := by
      rw [← hpm]
      exact hgp
    have hgq2 : mapGet ((List.range' 1 P).foldl
        (initStep sentences P (ceilDiv sentences.length P) em)
        initAccum0).pageMap (p + 1) = some pmq := by
      rw [← hpm]
      exact hgq
    obtain ⟨_, _, _, _, h5p, _, _⟩ := hinv.pageVal p pmp hgp2
    obtain ⟨_, _, _, h4q, _, _, _⟩ := hinv.pageVal (p + 1) pmq hgq2
    rw [h5p, h4q]
    have hq1 : (p + 1) - 1 = p := by omega
    rw [hq1]
    omega

theorem claim_C1_witness :
    ((initializePageMappings newSynchronizer 2 ["a", "b", "c"]
      ExtractionMethod.text).pageMap.map Prod.fst).count 2 = 1 ∧
    ((initializePageMappings newSynchronizer 2 ["a", "b", "c"]
      ExtractionMethod.text).sentenceToPageMap.map Prod.fst).count 1 = 1 :=
  ⟨(claim_C1 newSynchronizer 2 ["a", "b", "c"] ExtractionMethod.text
      (by decide) (by decide)).1 2 (by decide) (by decide),
   ((claim_C1 newSynchronizer 2 ["a", "b", "c"] ExtractionMethod.text
      (by decide) (by decide)).2 1 (by decide) (by decide)).1⟩

theorem claim_C2_witness :
    (mapGet (initializePageMappings newSynchronizer 2 ["a", "b", "c"]
      ExtractionMethod.text).pageMap 1).isSome = true ∧
    (mapGet (initializePageMappings newSynchronizer 2 ["a", "b", "c"]
      ExtractionMethod.text).pageMap 2).isSome = true :=
  ⟨(claim_C2 newSynchronizer 2 ["a", "b", "c"] ExtractionMethod.text
      (by decide) (by decide)).1 1 (by decide) (by decide),
   (claim_C2 newSynchronizer 2 ["a", "b", "c"] ExtractionMethod.text
      (by decide) (by decide)).1 2 (by decide) (by decide)⟩

/-- Unfolding of updateAudioPosition on the successful path. -/
theorem updateAudioPosition_eq (st : SyncState) (idx : Int) (pg : Nat)
    (pm : PageMapping)
    (hguard : ¬(idx < 0 ∨ (st.playbackState.totalSentences : Int) ≤ idx))
    (hget : mapGet st.sentenceToPageMap idx = some pg)
    (hpg : (pg == 0) = false)
    (hgetpm : mapGet st.pageMap pg = some pm)
    (hsip : 0 < pm.endSentenceIndex - pm.startSentenceIndex + 1) :
    updateAudioPosition st idx = { st with playbackState := { st.playbackState with
      currentPage := pg
      currentSentenceIndex := idx
      playbackPosition := max 0 (min 1
        (((idx - pm.startSentenceIndex : Int) : Rat) /
          ((pm.endSentenceIndex - pm.startSentenceIndex + 1 : Int) : Rat))) } } := by
  unfold updateAudioPosition
  rw [if_neg hguard, hget]
  simp only [hpg, Bool.false_eq_true, if_false, hgetpm]
  rw [if_pos hsip]

/-- Claim C6: for every in-range sentence index on a freshly initialized page
map, updateAudioPosition (advanceTo) sets playbackPosition to
(sentenceIndex - startSentenceIndex) / sentencesInPage of the owning page, a
value in [0, 1], which is 0 when the page holds exactly one sentence; in a
10-page, 95-sentence document, advanceTo(92) yields currentPage = 10 and
playbackPosition = 2/5 = 0.4. -/
theorem claim_C6 (st : SyncState) (P : Nat) (sentences : List String)
    (em : ExtractionMethod) (idx : Int) (hP : 0 < P) (hS : 0 < sentences.length)
    (h0 : 0 ≤ idx) (hiS : idx < (sentences.length : Int)) :
    ∃ pg pm,
      mapGet (initializePageMappings st P sentences em).sentenceToPageMap idx
        = some pg ∧
      mapGet (initializePageMappings st P sentences em).pageMap pg = some pm ∧
      (updateAudioPosition (initializePageMappings st P sentences em)
        idx).playbackState.currentPage = pg ∧
      (updateAudioPosition (initializePageMappings st P sentences em)
          idx).playbackState.playbackPosition
        = ((idx - pm.startSentenceIndex : Int) : Rat) /
            ((pm.endSentenceIndex - pm.startSentenceIndex + 1 : Int) : Rat) ∧
      0 ≤ (updateAudioPosition (initializePageMappings st P sentences em)
          idx).playbackState.playbackPosition ∧
      (updateAudioPosition (initializePageMappings st P sentences em)
          idx).playbackState.playbackPosition ≤ 1 ∧
      (pm.endSentenceIndex = pm.startSentenceIndex →
        (updateAudioPosition (initializePageMappings st P sentences em)
          idx).playbackState.playbackPosition = 0) ∧
      (sentences.length = 95 → P = 10 → idx = 92 →
        pg = 10 ∧
        (updateAudioPosition (initializePageMappings st P sentences em)
          idx).playbackState.playbackPosition = (2 : Rat) / 5) := by
  obtain ⟨hinv, hpm, hsm⟩ := initializePageMappings_inv st P sentences em
  have hcov : min (P * ceilDiv sentences.length P) sentences.length
      = sentences.length := by
    have := le_mul_ceilDiv sentences.length P hP
    omega
  have hisome := hinv.sentSome idx h0 (by rw [hcov]; exact hiS)
  rw [← hsm] at hisome
  obtain ⟨pg, hget⟩ := Option.isSome_iff_exists.mp hisome
  have hget2 : mapGet ((List.range' 1 P).foldl
      (initStep sentences P (ceilDiv sentences.length P) em)
      initAccum0).sentenceToPageMap idx = some pg := by
    rw [← hsm]
    exact hget
  obtain ⟨hpg1, hpgP, hlow, hhigh⟩ := hinv.sentVal idx pg hget2
  have hpmsome := hinv.pageSome pg hpg1 hpgP
  rw [← hpm] at hpmsome
  obtain ⟨pm, hgetpm⟩ := Option.isSome_iff_exists.mp hpmsome
  have hgetpm2 : mapGet ((List.range' 1 P).foldl
      (initStep sentences P (ceilDiv sentences.length P) em)
      initAccum0).pageMap pg = some pm := by
    rw [← hpm]
    exact hgetpm
  obtain ⟨_, _, _, h4, h5, _, _⟩ := hinv.pageVal pg pm hgetpm2
  have hguard : ¬(idx < 0 ∨
      ((initializePageMappings st P sentences em).playbackState.totalSentences : Int)
        ≤ idx) := by
    push_neg
    exact ⟨h0, hiS⟩
  have hpg0 : (pg == 0) = false := by
    simp only [beq_eq_false_iff_ne]
    omega
  have hsip : (0 : Int) < pm.endSentenceIndex - pm.startSentenceIndex + 1 := by
    rw [h4, h5]
    omega
  have hupd := updateAudioPosition_eq (initializePageMappings st P sentences em)
    idx pg pm hguard hget hpg0 hgetpm hsip
  have hnum : (0 : Int) ≤ idx - pm.startSentenceIndex := by
    rw [h4]
    omega
  have hlt : idx - pm.startSentenceIndex
      < pm.endSentenceIndex - pm.startSentenceIndex + 1 := by
    rw [h4, h5]
    omega
  have hposq : (0 : Rat) ≤ ((idx - pm.startSentenceIndex : Int) : Rat) /
      ((pm.endSentenceIndex - pm.startSentenceIndex + 1 : Int) : Rat) :=
    div_nonneg (by exact_mod_cast hnum) (by exact_mod_cast le_of_lt hsip)
  have hle1q : ((idx - pm.startSentenceIndex : Int) : Rat) /
      ((pm.endSentenceIndex - pm.startSentenceIndex + 1 : Int) : Rat) ≤ 1 := by
    rw [div_le_one (by exact_mod_cast hsip)]
    exact_mod_cast le_of_lt hlt
  have hclamp : max 0 (min 1 (((idx - pm.startSentenceIndex : Int) : Rat) /
        ((pm.endSentenceIndex - pm.startSentenceIndex + 1 : Int) : Rat)))
      = ((idx - pm.startSentenceIndex : Int) : Rat) /
        ((pm.endSentenceIndex - pm.startSentenceIndex + 1 : Int) : Rat) := by
    rw [min_eq_right hle1q, max_eq_right hposq]
  have hcp : (updateAudioPosition (initializePageMappings st P sentences em)
      idx).playbackState.currentPage = pg := by
    rw [hupd]
  have heq : (updateAudioPosition (initializePageMappings st P sentences em)
      idx).playbackState.playbackPosition
      = ((idx - pm.startSentenceIndex : Int) : Rat) /
        ((pm.endSentenceIndex - pm.startSentenceIndex + 1 : Int) : Rat) := by
    rw [hupd]
    exact hclamp
  refine ⟨pg, pm, hget, hgetpm, hcp, heq, ?_, ?_, ?_, ?_⟩
  · rw [heq]
    exact hposq
  · rw [heq]
    exact hle1q
  · intro hone
    rw [heq]
    have hidx : idx = pm.startSentenceIndex := by
      rw [h4]
      rw [h4, h5] at hone
      omega
    rw [hidx]
    simp
  · intro h95 hp10 hidx92
    subst hp10
    subst hidx92
    have havg : ceilDiv 95 10 = 10 := by decide
    rw [h95, havg] at hlow hhigh
    have hpg10 : pg = 10 := by omega
    subst hpg10
    refine ⟨rfl, ?_⟩
    rw [heq]
    rw [h95, havg] at h4 h5
    have hst : pm.startSentenceIndex = 90 := by
      rw [h4]
      decide
    have hen : pm.endSentenceIndex = 94 := by
      rw [h5]
      decide
    rw [hst, hen]
    norm_num

theorem claim_C6_witness :
    (updateAudioPosition (initializePageMappings newSynchronizer 10
      (List.replicate 95 "s") ExtractionMethod.text) 92).playbackState.currentPage
      = 10 ∧
    (updateAudioPosition (initializePageMappings newSynchronizer 10
      (List.replicate 95 "s") ExtractionMethod.text) 92).playbackState.playbackPosition
      = (2 : Rat) / 5 := by
  obtain ⟨pg, pm, hget, hgetpm, hcp, heq, hpos, hle, hone, hconc⟩ :=
    claim_C6 newSynchronizer 10 (List.replicate 95 "s") ExtractionMethod.text 92
      (by decide) (by decide) (by decide) (by decide)
  obtain ⟨hpg, hq⟩ := hconc (by decide) rfl rfl
  rw [hpg] at hcp
  exact ⟨hcp, hq⟩

/-- Membership of a successful Map.get result. -/
theorem mapGet_mem {α β : Type} [DecidableEq α] {m : List (α × β)} {k : α} {v : β}
    (h : mapGet m k = some v) : (k, v) ∈ m := by
  unfold mapGet at h
  cases hf : m.find? (fun p => decide (p.1 = k)) with
  | none =>
    rw [hf] at h
    simp at h
  | some pr =>
    rw [hf] at h
    simp only [Option.map_some', Option.some.injEq] at h
    have hfind := List.find?_some hf
    simp only [decide_eq_true_eq] at hfind
    have hpr : pr = (k, v) := Prod.ext hfind h
    exact hpr ▸ List.mem_of_find?_eq_some hf

/-- Any navigateToPage resolution with value true is an application of some
mapping of some non-empty page: the page map is unchanged, currentPage holds that
page, and currentCharIndex is its startCharIndex. -/
theorem navigateToPageFuel_true (fuel : Nat) :
    ∀ (st : SyncState) (q : Rat) (b : Bool),
      (navigateToPageFuel fuel st q b).1 = true →
      (navigateToPageFuel fuel st q b).2.pageMap = st.pageMap ∧
      ∃ p pm, mapGet st.pageMap p = some pm ∧ pm.isEmpty = false ∧
        (navigateToPageFuel fuel st q b).2.playbackState.currentPage = p ∧
        (navigateToPageFuel fuel st q b).2.playbackState.currentCharIndex
          = pm.startCharIndex := by
  induction fuel with
  | zero =>
    intro st q b h
    simp [navigateToPageFuel] at h
  | succ fuel ih =>
    intro st q b h
    rw [navigateToPageFuel] at h ⊢
    by_cases hv : isValidPageNumber st q
    · rw [if_pos hv] at h ⊢
      cases hget : mapGet st.pageMap q.num.toNat with
      | none =>
        unfold navCallback at h
        rw [hget] at h
        exact Bool.noConfusion h
      | some pm =>
        have hcb : navCallback (navigateToPageFuel fuel) st q.num.toNat b
            = if pm.isEmpty = true
              then match findNextPageWithContent st q.num.toNat with
                | some nextPageWithContent => navigateToPageFuel fuel
                    (pushError st "Page is empty. Jumping to page with content.")
                    ((nextPageWithContent : Nat) : Rat) b
                | none =>
                  (false, pushError st "Page is empty and no subsequent pages have content.")
              else (true, applyNavigation st q.num.toNat pm b) := by
          unfold navCallback
          rw [hget]
        rw [hcb] at h ⊢
        by_cases he : pm.isEmpty = true
        · rw [if_pos he] at h ⊢
          cases hf : findNextPageWithContent st q.num.toNat with
          | none =>
            rw [hf] at h
            exact Bool.noConfusion h
          | some np =>
            rw [hf] at h
            exact ih (pushError st "Page is empty. Jumping to page with content.")
              ((np : Nat) : Rat) b h
        · rw [if_neg he] at h ⊢
          refine ⟨rfl, q.num.toNat, pm, hget, ?_, rfl, rfl⟩
          simpa using he
    · rw [if_neg hv] at h
      exact Bool.noConfusion h

/-- Hand-built page mapping for navigation demonstrations. -/
def demoMapping (p : Nat) (e : Bool) : PageMapping :=
  { pageNumber := p
    startCharIndex := 0
    endCharIndex := 1
    startSentenceIndex := 0
    endSentenceIndex := 1
    wordCount := 1
    textContent := "xy"
    isEmpty := e
    hasImages := false
    extractionMethod := ExtractionMethod.text }

/-- Demonstration synchronizer state: five pages with page 3 empty. -/
def demoState : SyncState :=
  { pageMap := [(1, demoMapping 1 false), (2, demoMapping 2 false),
      (3, demoMapping 3 true), (4, demoMapping 4 false), (5, demoMapping 5 false)]
    sentenceToPageMap := []
    playbackState := { initialPlaybackState with totalPages := 5, totalSentences := 2 }
    pending := none
    errors := [] }

/-- Claim C7 (counterexample): after the valid advanceTo call
updateAudioPosition(1) on a 2-page, 2-sentence document, currentPage is 2 and
the non-empty mapping of that page spans characters [2, 3], yet currentCharIndex is
still 0, outside the range of the owning page. -/
theorem claim_C7_counterexample :
    (updateAudioPosition (initializePageMappings newSynchronizer 2 ["ab", "cd"]
      ExtractionMethod.text) 1).playbackState.currentPage = 2 ∧
    (updateAudioPosition (initializePageMappings newSynchronizer 2 ["ab", "cd"]
      ExtractionMethod.text) 1).playbackState.currentCharIndex = 0 ∧
    (mapGet (updateAudioPosition (initializePageMappings newSynchronizer 2
      ["ab", "cd"] ExtractionMethod.text) 1).pageMap 2).map PageMapping.isEmpty
      = some false ∧
    (mapGet (updateAudioPosition (initializePageMappings newSynchronizer 2
      ["ab", "cd"] ExtractionMethod.text) 1).pageMap 2).map
      PageMapping.startCharIndex = some 2 ∧
    (mapGet (updateAudioPosition (initializePageMappings newSynchronizer 2
      ["ab", "cd"] ExtractionMethod.text) 1).pageMap 2).map
      PageMapping.endCharIndex = some 3 :=
  ⟨by decide, by decide, by decide, by decide, by decide⟩

/-- Claim C7 (amended): currentCharIndex is consistent with the owning page
after initialization of a freshly constructed synchronizer and after every
successful navigateToPage on char-consistent page maps (as built by
initializePageMappings); updateAudioPosition, however, leaves currentCharIndex
unchanged, so after advanceTo it can lie outside the current page character
range. -/
theorem claim_C7_amended :
    (∀ (st : SyncState) (idx : Int),
      (updateAudioPosition st idx).playbackState.currentCharIndex =
        st.playbackState.currentCharIndex) ∧
    (∀ (P : Nat) (sentences : List String) (em : ExtractionMethod),
      ∀ pm, mapGet (initializePageMappings newSynchronizer P sentences em).pageMap
          (initializePageMappings newSynchronizer P sentences
            em).playbackState.currentPage = some pm →
        pm.isEmpty = false →
        pm.startCharIndex ≤ (initializePageMappings newSynchronizer P sentences
          em).playbackState.currentCharIndex ∧
        (initializePageMappings newSynchronizer P sentences
          em).playbackState.currentCharIndex ≤ pm.endCharIndex) ∧
    (∀ (st : SyncState) (q : Rat) (b : Bool),
      (∀ e ∈ st.pageMap, e.2.isEmpty = false →
        e.2.startCharIndex ≤ e.2.endCharIndex) →
      (navigateToPage st q b).1 = true →
      (mapGet (navigateToPage st q b).2.pageMap
        (navigateToPage st q b).2.playbackState.currentPage).isSome = true ∧
      (∀ pm, mapGet (navigateToPage st q b).2.pageMap
          (navigateToPage st q b).2.playbackState.currentPage = some pm →
        pm.isEmpty = false ∧
        pm.startCharIndex ≤ (navigateToPage st q b).2.playbackState.currentCharIndex ∧
        (navigateToPage st q b).2.playbackState.currentCharIndex ≤ pm.endCharIndex)) ∧
    (∀ (st : SyncState) (P : Nat) (sentences : List String) (em : ExtractionMethod),
      ∀ e ∈ (initializePageMappings st P sentences em).pageMap,
        e.2.isEmpty = false → e.2.startCharIndex ≤ e.2.endCharIndex) := by
  refine ⟨?_, ?_, ?_, ?_⟩
  · intro st idx
    unfold updateAudioPosition
    split
    · rfl
    · split
      · rfl
      · split
        · rfl
        · split
          · rfl
          · rfl
  · intro P sentences em pm hget hemp
    obtain ⟨hinv, hpm, _⟩ := initializePageMappings_inv newSynchronizer P sentences em
    have hget2 : mapGet ((List.range' 1 P).foldl
        (initStep sentences P (ceilDiv sentences.length P) em)
        initAccum0).pageMap 1 = some pm := by
      rw [← hpm]
      exact hget
    obtain ⟨_, _, _, _, _, hspan, hstart1⟩ := hinv.pageVal 1 pm hget2
    have h1 : pm.startCharIndex = 0 := hstart1 rfl
    have h2 := hspan hemp
    constructor
    · show pm.startCharIndex ≤ 0
      omega
    · show (0 : Int) ≤ pm.endCharIndex
      omega
  · intro st q b hcc hsucc
    obtain ⟨hmap, p, pm, hget, hemp, hcp, hccx⟩ :=
      navigateToPageFuel_true (st.playbackState.totalPages + 1) st q b hsucc
    have hgetcur : mapGet (navigateToPage st q b).2.pageMap
        (navigateToPage st q b).2.playbackState.currentPage = some pm := by
      show mapGet (navigateToPageFuel (st.playbackState.totalPages + 1) st q b).2.pageMap
        (navigateToPageFuel (st.playbackState.totalPages + 1) st q b).2.playbackState.currentPage = some pm
      rw [hmap, hcp]
      exact hget
    constructor
    · rw [hgetcur]
      rfl
    · intro pm2 hget2
      rw [hgetcur] at hget2
      have hpm2 : pm2 = pm := by
        simpa using hget2.symm
      rw [hpm2]
      refine ⟨hemp, ?_, ?_⟩
      · show pm.startCharIndex ≤
          (navigateToPageFuel (st.playbackState.totalPages + 1) st q b).2.playbackState.currentCharIndex
        rw [hccx]
      · show (navigateToPageFuel (st.playbackState.totalPages + 1) st q b).2.playbackState.currentCharIndex
          ≤ pm.endCharIndex
        rw [hccx]
        exact hcc (p, pm) (mapGet_mem hget) hemp
  · intro st P sentences em e hmem hemp
    obtain ⟨hinv, hpm, _⟩ := initializePageMappings_inv st P sentences em
    obtain ⟨a, pmv⟩ := e
    rw [hpm] at hmem
    have hkey : a ∈ ((List.range' 1 P).foldl
        (initStep sentences P (ceilDiv sentences.length P) em)
        initAccum0).pageMap.map Prod.fst :=
      List.mem_map.mpr ⟨(a, pmv), hmem, rfl⟩
    have hsome := (mapGet_isSome_iff _ _).mpr hkey
    obtain ⟨pmw, hgetw⟩ := Option.isSome_iff_exists.mp hsome
    obtain ⟨_, _, _, _, _, hspan, _⟩ := hinv.pageVal a pmw hgetw
    -- the map keys are nodup, so the found entry is this entry
    have hnodup : (((List.range' 1 P).foldl
        (initStep sentences P (ceilDiv sentences.length P) em)
        initAccum0).pageMap.map Prod.fst).Nodup := by
      rw [hinv.pageKeys]
      exact List.nodup_range' _ _
    have hpmv : pmv = pmw := by
      have hmemw := mapGet_mem hgetw
      have := List.inj_on_of_nodup_map hnodup hmem hmemw rfl
      exact congrArg Prod.snd this
  -- use it
    rw [hpmv] at hemp ⊢
    exact hspan hemp

/-- Reduction of the debounce callback when the target mapping exists. -/
theorem navCallback_found (recNav : SyncState → Rat → Bool → Bool × SyncState)
    (st : SyncState) (p : Nat) (b : Bool) (pm : PageMapping)
    (hget : mapGet st.pageMap p = some pm) :
    navCallback recNav st p b
      = if pm.isEmpty = true
        then match findNextPageWithContent st p with
          | some nextPageWithContent => recNav
              (pushError st "Page is empty. Jumping to page with content.")
              ((nextPageWithContent : Nat) : Rat) b
          | none =>
            (false, pushError st "Page is empty and no subsequent pages have content.")
        else (true, applyNavigation st p pm b) := by
  unfold navCallback
  rw [hget]

/-- Reduction of the debounce callback on an empty page with a later non-empty
page: the recursive navigateToPage call on that page. -/
theorem navCallback_redirect (recNav : SyncState → Rat → Bool → Bool × SyncState)
    (st : SyncState) (p : Nat) (b : Bool) (pm : PageMapping) (np : Nat)
    (hget : mapGet st.pageMap p = some pm) (he : pm.isEmpty = true)
    (hf : findNextPageWithContent st p = some np) :
    navCallback recNav st p b
      = recNav (pushError st "Page is empty. Jumping to page with content.")
          ((np : Nat) : Rat) b := by
  rw [navCallback_found recNav st p b pm hget, if_pos he, hf]

/-- Reduction of the debounce callback on an empty page with no later content. -/
theorem navCallback_deadEnd (recNav : SyncState → Rat → Bool → Bool × SyncState)
    (st : SyncState) (p : Nat) (b : Bool) (pm : PageMapping)
    (hget : mapGet st.pageMap p = some pm) (he : pm.isEmpty = true)
    (hf : findNextPageWithContent st p = none) :
    navCallback recNav st p b
      = (false, pushError st "Page is empty and no subsequent pages have content.") := by
  rw [navCallback_found recNav st p b pm hget, if_pos he, hf]

/-- Unfolding of one fuel step of the resolved navigateToPage. -/
theorem navigateToPageFuel_succ (fuel : Nat) (st : SyncState) (q : Rat) (b : Bool) :
    navigateToPageFuel (fuel + 1) st q b
      = if isValidPageNumber st q then
          navCallback (navigateToPageFuel fuel) st q.num.toNat b
        else (false, pushError st "Invalid page number") := by
  rw [navigateToPageFuel]

/-- Reduction of the debounce callback on a non-empty page. -/
theorem navCallback_success (recNav : SyncState → Rat → Bool → Bool × SyncState)
    (st : SyncState) (p : Nat) (b : Bool) (pm : PageMapping)
    (hget : mapGet st.pageMap p = some pm) (he : pm.isEmpty = false) :
    navCallback recNav st p b = (true, applyNavigation st p pm b) := by
  rw [navCallback_found recNav st p b pm hget, if_neg (by simp [he])]

/-- Elements before a find? hit on a contiguous range fail the predicate. -/
theorem find?_range'_first {p : Nat → Bool} :
    ∀ {n s np : Nat}, (List.range' s n).find? p = some np →
      ∀ r, s ≤ r → r < np → p r = false := by
  intro n
  induction n with
  | zero =>
    intro s np h
    simp at h
  | succ n ih =>
    intro s np h r h1 h2
    rw [List.range'_succ] at h
    rw [List.find?_cons] at h
    cases hp : p s with
    | true =>
      rw [hp] at h
      simp at h
      omega
    | false =>
      rw [hp] at h
      simp only at h
      by_cases hr : r = s
      · rw [hr]
        exact hp
      · exact ih h r (by omega) h2

/-- What a successful findNextPageWithContent returns: a strictly later page
within range whose mapping exists and is non-empty. -/
theorem findNextPageWithContent_some {st : SyncState} {startPage np : Nat}
    (h : findNextPageWithContent st startPage = some np) :
    startPage < np ∧ np ≤ st.playbackState.totalPages ∧
    ∃ m, mapGet st.pageMap np = some m ∧ m.isEmpty = false := by
  unfold findNextPageWithContent at h
  have hmem := List.mem_of_find?_eq_some h
  have hprop := List.find?_some h
  rw [List.mem_range'] at hmem
  obtain ⟨i, hi, heq⟩ := hmem
  refine ⟨by omega, by omega, ?_⟩
  cases hm : mapGet st.pageMap np with
  | none =>
    rw [hm] at hprop
    exact Bool.noConfusion hprop
  | some m =>
    rw [hm] at hprop
    refine ⟨m, rfl, ?_⟩
    simpa using hprop

/-- Decomposition of a valid page-number check. -/
theorem isValidPageNumber_true {st : SyncState} {q : Rat}
    (h : isValidPageNumber st q = true) :
    q.den = 1 ∧ 1 ≤ q.num ∧ q.num ≤ (st.playbackState.totalPages : Int) := by
  simp only [isValidPageNumber, Bool.and_eq_true, beq_iff_eq, decide_eq_true_eq] at h
  obtain ⟨⟨h1, h2⟩, h3⟩ := h
  have hq : (q.num : Rat) = q := (Rat.den_eq_one_iff q).mp h1
  refine ⟨h1, ?_, ?_⟩
  · have : (1 : Rat) ≤ (q.num : Rat) := by rw [hq]; exact h2
    exact_mod_cast this
  · have : (q.num : Rat) ≤ ((st.playbackState.totalPages : Int) : Rat) := by
      rw [hq]
      exact_mod_cast h3
    exact_mod_cast this

/-- Validity of a natural page number cast to a Rat. -/
theorem isValidPageNumber_natCast {st : SyncState} {p : Nat}
    (h1 : 1 ≤ p) (h2 : p ≤ st.playbackState.totalPages) :
    isValidPageNumber st ((p : Nat) : Rat) = true := by
  simp only [isValidPageNumber, Bool.and_eq_true, beq_iff_eq, decide_eq_true_eq]
  refine ⟨⟨Rat.den_natCast p, ?_⟩, ?_⟩
  · exact_mod_cast h1
  · exact_mod_cast h2

/-- Claim C3: navigating to a valid page whose mapping is empty redirects to
the first later page with content when one exists, resolving true with
currentPage equal to that page; when no later page has content it resolves
false and leaves PlaybackState (and the page maps) unchanged. -/
theorem claim_C3 (st : SyncState) (q : Rat) (b : Bool) (pm : PageMapping)
    (hv : isValidPageNumber st q = true)
    (hget : mapGet st.pageMap q.num.toNat = some pm)
    (he : pm.isEmpty = true) :
    (∀ np : Nat, findNextPageWithContent st q.num.toNat = some np →
      (navigateToPage st q b).1 = true ∧
      (navigateToPage st q b).2.playbackState.currentPage = np ∧
      (∀ r : Nat, q.num.toNat < r → r < np →
        ∀ m, mapGet st.pageMap r = some m → m.isEmpty = true)) ∧
    (findNextPageWithContent st q.num.toNat = none →
      (navigateToPage st q b).1 = false ∧
      (navigateToPage st q b).2.playbackState = st.playbackState ∧
      (navigateToPage st q b).2.pageMap = st.pageMap) := by
  have hnav : navigateToPage st q b
      = navCallback (navigateToPageFuel st.playbackState.totalPages) st q.num.toNat b := by
    rw [navigateToPage, navigateToPageFuel, if_pos hv]
  constructor
  · intro np hf
    obtain ⟨hlt, hle, m, hgetm, hem⟩ := findNextPageWithContent_some hf
    obtain ⟨T1, hT2⟩ : ∃ T1, st.playbackState.totalPages = T1 + 1 := by
      obtain ⟨hd, h1, h2⟩ := isValidPageNumber_true hv
      exact ⟨st.playbackState.totalPages - 1, by omega⟩
    rw [hnav, navCallback_redirect _ st q.num.toNat b pm np hget he hf]
    set st2 := pushError st "Page is empty. Jumping to page with content." with hst2
    have hv2 : isValidPageNumber st2 ((np : Nat) : Rat) = true :=
      isValidPageNumber_natCast (by omega) hle
    have hnum : ((np : Nat) : Rat).num.toNat = np := by
      rw [Rat.num_natCast]
      exact Int.toNat_natCast np
    refine ⟨?_, ?_, ?_⟩
    · rw [hT2, navigateToPageFuel_succ, if_pos hv2, hnum,
        navCallback_success _ st2 np b m hgetm hem]
    · rw [hT2, navigateToPageFuel_succ, if_pos hv2, hnum,
        navCallback_success _ st2 np b m hgetm hem]
      rfl
    · intro r hr1 hr2 m2 hgetm2
      have hfirst : (match mapGet st.pageMap r with
          | some mapping => !mapping.isEmpty
          | none => false) = false :=
        find?_range'_first hf r (by omega) hr2
      rw [hgetm2] at hfirst
      simpa using hfirst
  · intro hf
    rw [hnav, navCallback_deadEnd _ st q.num.toNat b pm hget he hf]
    exact ⟨rfl, rfl, rfl⟩

/-- Claim C4: for every pageNumber that is not an integer in [1, totalPages],
navigateToPage resolves false, a message is delivered to the error channel,
and every field of PlaybackState (and the rest of the state) is unchanged. -/
theorem claim_C4 (st : SyncState) (q : Rat) (b : Bool)
    (hinvalid : q.den ≠ 1 ∨ q < 1 ∨ (st.playbackState.totalPages : Rat) < q) :
    (navigateToPage st q b).1 = false ∧
    (navigateToPage st q b).2.playbackState = st.playbackState ∧
    (navigateToPage st q b).2.pageMap = st.pageMap ∧
    (navigateToPage st q b).2.sentenceToPageMap = st.sentenceToPageMap ∧
    (navigateToPage st q b).2.pending = st.pending ∧
    (navigateToPage st q b).2.errors = st.errors ++ ["Invalid page number"] := by
  have hv : ¬(isValidPageNumber st q = true) := by
    simp only [isValidPageNumber, Bool.and_eq_true, beq_iff_eq, decide_eq_true_eq]
    rintro ⟨⟨h1, h2⟩, h3⟩
    rcases hinvalid with h | h | h
    · exact h h1
    · exact absurd h2 (not_le.mpr h)
    · exact absurd h3 (not_le.mpr h)
  rw [navigateToPage, navigateToPageFuel, if_neg hv]
  exact ⟨rfl, rfl, rfl, rfl, rfl, rfl⟩

/-- Reduction of fireDebounce with a pending request. -/
theorem fireDebounce_some (st : SyncState) (q : Rat) (b : Bool)
    (hp : st.pending = some (q, b)) :
    fireDebounce st =
      (some (navCallback (navigateToPageFuel st.playbackState.totalPages)
        { st with pending := none } q.num.toNat b).1,
       (navCallback (navigateToPageFuel st.playbackState.totalPages)
        { st with pending := none } q.num.toNat b).2) := by
  unfold fireDebounce
  rw [hp]

/-- Claim C5: two navigateToPage requests inside the debounce window collapse
to the later one: after requesting page 2 then page 5 (both valid, page 5
non-empty), neither request has resolved, only the page-5 request is pending,
PlaybackState is untouched, and firing the debounce timer resolves true with
currentPage = 5 — the applying step of the page-2 request never runs. -/
theorem claim_C5 (st : SyncState) (b1 b2 : Bool) (pm5 : PageMapping)
    (hv2 : isValidPageNumber st 2 = true)
    (hv5 : isValidPageNumber st 5 = true)
    (hget5 : mapGet st.pageMap 5 = some pm5)
    (he5 : pm5.isEmpty = false) :
    (navRequest st 2 b1).1 = none ∧
    (navRequest ((navRequest st 2 b1).2) 5 b2).1 = none ∧
    (navRequest ((navRequest st 2 b1).2) 5 b2).2.pending = some (5, b2) ∧
    (navRequest ((navRequest st 2 b1).2) 5 b2).2.playbackState = st.playbackState ∧
    (fireDebounce ((navRequest ((navRequest st 2 b1).2) 5 b2).2)).1 = some true ∧
    (fireDebounce ((navRequest ((navRequest st 2 b1).2) 5 b2).2)).2.playbackState.currentPage
      = 5 := by
  have h1 : navRequest st 2 b1 = (none, { st with pending := some (2, b1) }) := by
    unfold navRequest
    rw [if_pos hv2]
  have h2 : navRequest { st with pending := some ((2 : Rat), b1) } 5 b2
      = (none, { st with pending := some (5, b2) }) := by
    unfold navRequest
    rw [if_pos (show isValidPageNumber { st with pending := some ((2 : Rat), b1) } 5
      = true from hv5)]
  have hnum5 : ((5 : Rat)).num.toNat = 5 := rfl
  have hfire : fireDebounce { st with pending := some ((5 : Rat), b2) }
      = (some true, applyNavigation { st with pending := none } 5 pm5 b2) := by
    rw [fireDebounce_some _ 5 b2 rfl, hnum5,
      navCallback_success _ { st with pending := none } 5 b2 pm5 hget5 he5]
  refine ⟨?_, ?_, ?_, ?_, ?_, ?_⟩
  · rw [h1]
  · rw [h1, h2]
  · rw [h1, h2]
  · rw [h1, h2]
  · rw [h1, h2, hfire]
  · rw [h1, h2, hfire]
    rfl

theorem claim_C3_witness :
    (navigateToPage demoState 3 false).1 = true ∧
    (navigateToPage demoState 3 false).2.playbackState.currentPage = 4 :=
  ⟨((claim_C3 demoState 3 false (demoMapping 3 true)
      (by decide) (by decide) (by decide)).1 4 (by decide)).1,
   ((claim_C3 demoState 3 false (demoMapping 3 true)
      (by decide) (by decide) (by decide)).1 4 (by decide)).2.1⟩

theorem claim_C4_witness :
    (navigateToPage demoState 0 false).1 = false ∧
    (navigateToPage demoState 0 false).2.playbackState = demoState.playbackState ∧
    (navigateToPage demoState 0 false).2.errors
      = demoState.errors ++ ["Invalid page number"] :=
  ⟨(claim_C4 demoState 0 false (Or.inr (Or.inl (by norm_num)))).1,
   (claim_C4 demoState 0 false (Or.inr (Or.inl (by norm_num)))).2.1,
   (claim_C4 demoState 0 false (Or.inr (Or.inl (by norm_num)))).2.2.2.2.2⟩

theorem claim_C5_witness :
    (fireDebounce ((navRequest ((navRequest demoState 2 false).2) 5 false).2)).1
      = some true ∧
    (fireDebounce ((navRequest ((navRequest demoState 2 false).2) 5
      false).2)).2.playbackState.currentPage = 5 :=
  ⟨(claim_C5 demoState false false (demoMapping 5 false)
      (by decide) (by decide) (by decide) (by decide)).2.2.2.2.1,
   (claim_C5 demoState false false (demoMapping 5 false)
      (by decide) (by decide) (by decide) (by decide)).2.2.2.2.2⟩

theorem claim_C7_witness :
    (updateAudioPosition newSynchronizer 0).playbackState.currentCharIndex =
      newSynchronizer.playbackState.currentCharIndex ∧
    (mapGet (navigateToPage demoState 2 false).2.pageMap
      (navigateToPage demoState 2 false).2.playbackState.currentPage).isSome = true :=
  ⟨claim_C7_amended.1 newSynchronizer 0,
   (claim_C7_amended.2.2.1 demoState 2 false (by decide) (by decide)).1⟩

/-! The error handler claims. -/

/-- Claim C8: determineSeverity and isRecoverable implement exactly the static
severity and recoverability table of the taxonomy, and every ErrorInfo built
by handleError carries exactly those values, depending only on the type. -/
theorem claim_C8 :
    (determineSeverity .PDF_LOAD_ERROR = .CRITICAL ∧
      isRecoverable .PDF_LOAD_ERROR = false) ∧
    (determineSeverity .BROWSER_COMPATIBILITY_ERROR = .CRITICAL ∧
      isRecoverable .BROWSER_COMPATIBILITY_ERROR = false) ∧
    (determineSeverity .TEXT_EXTRACTION_ERROR = .HIGH ∧
      isRecoverable .TEXT_EXTRACTION_ERROR = true) ∧
    (determineSeverity .AUDIO_SYNTHESIS_ERROR = .HIGH ∧
      isRecoverable .AUDIO_SYNTHESIS_ERROR = true) ∧
    (determineSeverity .SYNCHRONIZATION_ERROR = .HIGH ∧
      isRecoverable .SYNCHRONIZATION_ERROR = true) ∧
    (determineSeverity .OCR_ERROR = .MEDIUM ∧ isRecoverable .OCR_ERROR = true) ∧
    (determineSeverity .PAGE_NAVIGATION_ERROR = .MEDIUM ∧
      isRecoverable .PAGE_NAVIGATION_ERROR = true) ∧
    (determineSeverity .PERFORMANCE_ERROR = .MEDIUM ∧
      isRecoverable .PERFORMANCE_ERROR = true) ∧
    (determineSeverity .VALIDATION_ERROR = .LOW ∧
      isRecoverable .VALIDATION_ERROR = true) ∧
    (determineSeverity .NETWORK_ERROR = .LOW ∧
      isRecoverable .NETWORK_ERROR = true) ∧
    (∀ (t : ErrorType) (m : String) (c : Option String) (d : Option ErrorDetails)
        (ts : Nat),
      (mkErrorInfo t m c d ts).severity = determineSeverity t ∧
      (mkErrorInfo t m c d ts).recoverable = isRecoverable t) := by
  refine ⟨⟨rfl, rfl⟩, ⟨rfl, rfl⟩, ⟨rfl, rfl⟩, ⟨rfl, rfl⟩, ⟨rfl, rfl⟩, ⟨rfl, rfl⟩,
    ⟨rfl, rfl⟩, ⟨rfl, rfl⟩, ⟨rfl, rfl⟩, ⟨rfl, rfl⟩, ?_⟩
  intro t m c d ts
  exact ⟨rfl, rfl⟩

/-- State part of a handleError call: always exactly one logError. -/
theorem handleError_state (st : ErrorHandlerState) (t : ErrorType) (m : String)
    (c : Option String) (d : Option ErrorDetails) (ts : Nat) :
    (handleError st t m c d ts).2 = logError st (mkErrorInfo t m c d ts) := by
  simp only [handleError]
  split <;> rfl

theorem logError_maxLogSize (st : ErrorHandlerState) (e : ErrorInfo) :
    (logError st e).maxLogSize = st.maxLogSize := rfl

theorem logError_small {st : ErrorHandlerState} (e : ErrorInfo)
    (h : st.errorLog.length < st.maxLogSize) :
    (logError st e).errorLog = st.errorLog ++ [e] := by
  simp only [logError]
  rw [if_neg]
  simp only [List.length_append, List.length_singleton, List.length_nil]
  omega

theorem logError_full {st : ErrorHandlerState} (e : ErrorInfo)
    (h : st.errorLog.length = st.maxLogSize) :
    (logError st e).errorLog = (st.errorLog ++ [e]).drop 1 := by
  simp only [logError, lastN]
  rw [if_pos]
  · congr 1
    simp only [List.length_append, List.length_singleton, List.length_nil]
    omega
  · simp only [List.length_append, List.length_singleton, List.length_nil]
    omega

theorem runHandleErrors_cons (st : ErrorHandlerState) (c : HandleErrorCall)
    (cs : List HandleErrorCall) :
    runHandleErrors st (c :: cs)
      = runHandleErrors
          (handleError st c.type c.message c.context c.details c.timestamp).2 cs := rfl

/-- Bounded-log characterization: after any call sequence the log holds the
most recent entries, capacity 100. -/
theorem runHandleErrors_log (calls : List HandleErrorCall) :
    ∀ (st : ErrorHandlerState), st.maxLogSize = 100 → st.errorLog.length ≤ 100 →
    (runHandleErrors st calls).errorLog =
      (st.errorLog ++ calls.map callInfo).drop
        (st.errorLog.length + calls.length - 100) := by
  induction calls with
  | nil =>
    intro st h100 hlen
    show st.errorLog = _
    simp only [List.map_nil, List.append_nil, List.length_nil]
    rw [show st.errorLog.length + 0 - 100 = 0 from by omega, List.drop_zero]
  | cons c cs ih =>
    intro st h100 hlen
    rw [runHandleErrors_cons, handleError_state]
    have hmax : (logError st
        (mkErrorInfo c.type c.message c.context c.details c.timestamp)).maxLogSize
        = 100 := by
      rw [logError_maxLogSize, h100]
    by_cases hL : st.errorLog.length < 100
    · have hlog : (logError st
          (mkErrorInfo c.type c.message c.context c.details c.timestamp)).errorLog
          = st.errorLog ++ [mkErrorInfo c.type c.message c.context c.details c.timestamp] :=
        logError_small _ (by omega)
      have hlen2 : (logError st
          (mkErrorInfo c.type c.message c.context c.details c.timestamp)).errorLog.length
          ≤ 100 := by
        rw [hlog]
        simp only [List.length_append, List.length_singleton]
        omega
      rw [ih _ hmax hlen2, hlog]
      rw [List.append_assoc]
      simp only [List.singleton_append, List.map_cons, List.length_append,
        List.length_singleton, List.length_cons, List.length_nil]
      congr 1
      omega
    · have hL100 : st.errorLog.length = 100 := by omega
      have hlog : (logError st
          (mkErrorInfo c.type c.message c.context c.details c.timestamp)).errorLog
          = (st.errorLog ++ [mkErrorInfo c.type c.message c.context c.details c.timestamp]).drop 1 :=
        logError_full _ (by omega)
      have hlen2 : (logError st
          (mkErrorInfo c.type c.message c.context c.details c.timestamp)).errorLog.length
          ≤ 100 := by
        rw [hlog]
        simp only [List.length_drop, List.length_append, List.length_singleton]
        omega
      rw [ih _ hmax hlen2, hlog]
      rw [← List.drop_append_of_le_length (by
        simp only [List.length_append, List.length_singleton]
        omega)]
      rw [List.drop_drop, List.append_assoc]
      simp only [List.singleton_append, List.map_cons, List.length_drop,
        List.length_append, List.length_singleton, List.length_cons, List.length_nil]
      congr 1
      omega

/-- Claim C9: every handleError call appends exactly one entry to the log
(new length = min(old + 1, 100) for the capacity-100 handler), the log from a
fresh handler always holds exactly the most recent min(n, 100) entries, and
after 101 sequential errors it holds exactly the latest 100 with the oldest
evicted. -/
theorem claim_C9 :
    (∀ (st : ErrorHandlerState) (t : ErrorType) (m : String) (c : Option String)
        (d : Option ErrorDetails) (ts : Nat), st.maxLogSize = 100 →
      (handleError st t m c d ts).2.errorLog.length
        = min (st.errorLog.length + 1) 100) ∧
    (∀ calls : List HandleErrorCall,
      (runHandleErrors newErrorHandler calls).errorLog
        = (calls.map callInfo).drop (calls.length - 100) ∧
      (runHandleErrors newErrorHandler calls).errorLog.length
        = min calls.length 100) ∧
    (∀ calls : List HandleErrorCall, calls.length = 101 →
      (runHandleErrors newErrorHandler calls).errorLog
        = (calls.map callInfo).drop 1 ∧
      (runHandleErrors newErrorHandler calls).errorLog.length = 100) := by
  have hbase : ∀ calls : List HandleErrorCall,
      (runHandleErrors newErrorHandler calls).errorLog
        = (calls.map callInfo).drop (calls.length - 100) := by
    intro calls
    have h := runHandleErrors_log calls newErrorHandler rfl (by simp [newErrorHandler])
    simpa [newErrorHandler] using h
  refine ⟨?_, ?_, ?_⟩
  · intro st t m c d ts h100
    rw [handleError_state]
    simp only [logError, h100, lastN]
    split
    · rename_i hc
      simp only [List.length_append, List.length_singleton, List.length_nil] at hc
      simp only [List.length_drop, List.length_append, List.length_singleton,
        List.length_nil]
      omega
    · rename_i hc
      simp only [List.length_append, List.length_singleton, List.length_nil] at hc
      simp only [List.length_append, List.length_singleton, List.length_nil]
      omega
  · intro calls
    refine ⟨hbase calls, ?_⟩
    rw [hbase calls]
    simp only [List.length_drop, List.length_map]
    omega
  · intro calls h101
    constructor
    · rw [hbase calls, h101]
    · rw [hbase calls]
      simp only [List.length_drop, List.length_map]
      omega

/-- Call list of 101 network errors for the eviction demonstration. -/
def demoCalls : List HandleErrorCall :=
  (List.range 101).map (fun i =>
    { type := ErrorType.NETWORK_ERROR
      message := "m"
      context := none
      details := none
      timestamp := i })

theorem claim_C9_witness :
    (handleError newErrorHandler ErrorType.NETWORK_ERROR "m" none none 0).2.errorLog.length
      = min (newErrorHandler.errorLog.length + 1) 100 ∧
    (runHandleErrors newErrorHandler demoCalls).errorLog
      = (demoCalls.map callInfo).drop 1 ∧
    (runHandleErrors newErrorHandler demoCalls).errorLog.length = 100 :=
  ⟨claim_C9.1 newErrorHandler ErrorType.NETWORK_ERROR "m" none none 0 rfl,
   (claim_C9.2.2 demoCalls (by simp [demoCalls])).1,
   (claim_C9.2.2 demoCalls (by simp [demoCalls])).2⟩

/-- Claim C10: handleError can only resolve true for TEXT_EXTRACTION_ERROR and
AUDIO_SYNTHESIS_ERROR; for every other type, the recoverable ones included,
the recovery-strategy table yields no executable actions and handleError
resolves false; and those two types do resolve true (for text extraction,
whenever the extractionMethod detail is not the string ocr). -/
theorem claim_C10 :
    (∀ (st : ErrorHandlerState) (t : ErrorType) (m : String) (c : Option String)
        (d : Option ErrorDetails) (ts : Nat),
      t ≠ ErrorType.TEXT_EXTRACTION_ERROR → t ≠ ErrorType.AUDIO_SYNTHESIS_ERROR →
      (handleError st t m c d ts).1 = false) ∧
    (∀ (st : ErrorHandlerState) (m : String) (c : Option String)
        (d : Option ErrorDetails) (ts : Nat),
      (handleError st ErrorType.AUDIO_SYNTHESIS_ERROR m c d ts).1 = true) ∧
    (∀ (st : ErrorHandlerState) (m : String) (c : Option String) (ts : Nat),
      (handleError st ErrorType.TEXT_EXTRACTION_ERROR m c none ts).1 = true) := by
  refine ⟨?_, ?_, ?_⟩
  · intro st t m c d ts h1 h2
    cases t <;> first | rfl | exact absurd rfl h1 | exact absurd rfl h2
  · intro st m c d ts
    rfl
  · intro st m c ts
    rfl

theorem claim_C10_witness :
    (handleError newErrorHandler ErrorType.OCR_ERROR "m" none none 0).1 = false ∧
    (handleError newErrorHandler ErrorType.AUDIO_SYNTHESIS_ERROR "m" none none 0).1
      = true ∧
    (handleError newErrorHandler ErrorType.TEXT_EXTRACTION_ERROR "m" none none 0).1
      = true :=
  ⟨claim_C10.1 newErrorHandler ErrorType.OCR_ERROR "m" none none 0
      (by decide) (by decide),
   claim_C10.2.1 newErrorHandler "m" none none 0,
   claim_C10.2.2 newErrorHandler "m" none 0⟩

end TextToSpeech
